import Mathlib

set_option maxRecDepth 8000

/-!
Shallow embedding of the META.js Customizer service-configuration engine
(`src/scripts/components/ServiceConfigGenerator.js` and the static
per-service definition chain of `script.js`).  JavaScript strings are
modelled as lists of characters; the favicon network probe is modelled as
an oracle function from URL to an optional boolean, where `none` stands
for a thrown fetch error and `some b` for a response whose `ok` flag is
`b`.  The mutable favicon cache of the `ServiceConfigGenerator` class is
threaded explicitly through the methods.
-/

namespace MetaJs

/-- JavaScript strings, modelled as lists of characters. -/
abbrev Str := List Char

/-- Conversion from a Lean string literal to the model's string type. -/
def l (s : String) : Str := s.toList

/-- Model of JavaScript `String.prototype.toLowerCase` (per character). -/
def lower (s : Str) : Str := s.map Char.toLower

/-- Model of JavaScript `String.prototype.split` with a one-character
separator: `splitOnChar sep s` splits `s` at every occurrence of `sep`,
yielding the (possibly empty) fragments between occurrences.  The empty
string splits to a single empty fragment, as in JavaScript. -/
def splitOnChar (sep : Char) : Str → List Str
  | [] => [[]]
  | c :: rest =>
    if c = sep then [] :: splitOnChar sep rest
    else
      match splitOnChar sep rest with
      | [] => [[c]]
      | p :: ps => (c :: p) :: ps

/-- `domain.split(".")` from `parseDomain`. -/
def splitOnDot (s : Str) : List Str := splitOnChar '.' s

/-- Model of JavaScript `Array.prototype.join` with separator `sep`. -/
def joinSep (sep : Str) : List Str → Str
  | [] => []
  | [p] => p
  | p :: ps => p ++ sep ++ joinSep sep ps

/-- `parts.join(".")` from `parseDomain`. -/
def joinDot (parts : List Str) : Str := joinSep (l ".") parts

/-- Result of `parseDomain`: the second-level and top-level components. -/
structure DomainParts where
  sld : Str
  tld : Str
deriving DecidableEq, Repr

/-- The fixed allow-list of compound suffixes from `parseDomain`
("Handle special TLDs like .co.uk, .com.au, etc."). -/
def specialTlds : List Str :=
  [l "co.uk", l "com.au", l "co.jp", l "co.kr", l "com.br", l "co.in"]

/-- Model of `parseDomain(domain)`.  The JavaScript function throws
`Invalid domain` when the split yields fewer than two parts; the
embedding returns `none` there.  The expression
`parts[parts.length - 3] || parts[parts.length - 2]` evaluates to
`parts[parts.length - 2]` both when index `length - 3` is out of range
(the value is `undefined`, falsy) and when the part at that index is the
empty string (also falsy). -/
def parseDomain (domain : Str) : Option DomainParts :=
  let parts := splitOnDot domain
  if parts.length < 2 then none
  else
    let lastTwoParts := joinDot (parts.drop (parts.length - 2))
    if lastTwoParts ∈ specialTlds then
      some
        { sld :=
            if 3 ≤ parts.length ∧ parts.getD (parts.length - 3) [] ≠ [] then
              parts.getD (parts.length - 3) []
            else parts.getD (parts.length - 2) []
          tld := lastTwoParts }
    else
      some
        { sld := parts.getD (parts.length - 2) []
          tld := parts.getD (parts.length - 1) [] }

/-- A service configuration record: the JavaScript object assembled by
`generateServiceConfig` (and by `script.js`).  `name` is always set; the
other four properties are optional. -/
structure Config where
  name : Str
  tld : Option Str := none
  sld : Option Str := none
  domain : Option Str := none
  «alias» : Option Str := none
deriving DecidableEq, Repr

/-- The special domain mappings installed by the `ServiceConfigGenerator`
constructor ("Special domain mappings for services that don't follow
standard patterns"). -/
def specialDomainsInit : List (Str × Str) :=
  [ (l "rednote", l "xiaohongshu.com")
  , (l "xai", l "x.ai")
  , (l "discord", l "discord.com")
  , (l "telegram", l "t.me")
  , (l "whatsapp", l "web.whatsapp.com")
  , (l "instagram", l "instagram.com")
  , (l "facebook", l "facebook.com")
  , (l "twitter", l "twitter.com")
  , (l "x", l "x.com")
  , (l "linkedin", l "linkedin.com")
  , (l "tiktok", l "tiktok.com")
  , (l "youtube", l "youtube.com")
  , (l "reddit", l "reddit.com")
  , (l "github", l "github.com")
  , (l "gitlab", l "gitlab.com")
  , (l "bitbucket", l "bitbucket.org")
  , (l "stackoverflow", l "stackoverflow.com")
  , (l "medium", l "medium.com")
  , (l "dev", l "dev.to")
  , (l "hashnode", l "hashnode.com")
  , (l "notion", l "notion.so")
  , (l "figma", l "figma.com")
  , (l "spotify", l "spotify.com")
  , (l "apple-music", l "music.apple.com")
  , (l "netflix", l "netflix.com")
  , (l "amazon", l "amazon.com")
  , (l "ebay", l "ebay.com")
  , (l "aliexpress", l "aliexpress.com")
  , (l "taobao", l "taobao.com")
  , (l "jd", l "jd.com")
  ]

/-- State of a `ServiceConfigGenerator` instance: the two constants set
by the constructor and the mutable favicon cache (a `Map` from service
name to boolean, modelled as an association list). -/
structure ServiceConfigGenerator where
  faviconBaseUrl : Str
  faviconCache : List (Str × Bool)
  specialDomains : List (Str × Str)
deriving DecidableEq, Repr

/-- The instance produced by the constructor: base URL of the favicon
repository, an empty cache, and the special domain mappings. -/
def ServiceConfigGenerator.init : ServiceConfigGenerator :=
  { faviconBaseUrl := l "https://raw.githubusercontent.com/xixu-me/favicons/main/"
    faviconCache := []
    specialDomains := specialDomainsInit }

/-- The URL probed by `checkFaviconExists`: the base URL, the service
name, and the `.svg` extension. -/
def faviconUrl (g : ServiceConfigGenerator) (serviceName : Str) : Str :=
  g.faviconBaseUrl ++ serviceName ++ l ".svg"

/-- Model of `checkFaviconExists(serviceName)`.  `net` is the network:
`none` models a `fetch` that throws, `some b` a response whose `ok` flag
is `b`.  A cache hit returns the cached boolean without touching the
network; a miss probes the network, caches `response.ok` (or `false`
when the fetch threw) and returns it.  The method never throws. -/
def ServiceConfigGenerator.checkFaviconExists (g : ServiceConfigGenerator)
    (net : Str → Option Bool) (serviceName : Str) :
    Bool × ServiceConfigGenerator :=
  match g.faviconCache.lookup serviceName with
  | some b => (b, g)
  | none =>
    match net (faviconUrl g serviceName) with
    | some ok => (ok, { g with faviconCache := (serviceName, ok) :: g.faviconCache })
    | none => (false, { g with faviconCache := (serviceName, false) :: g.faviconCache })

/-- Model of `generateServiceConfig(serviceName)`.  The `try`/`catch`
around `parseDomain` appears as the `none` case of the match on its
result. -/
def ServiceConfigGenerator.generateServiceConfig (g : ServiceConfigGenerator)
    (net : Str → Option Bool) (serviceName : Str) :
    Config × ServiceConfigGenerator :=
  match g.specialDomains.lookup serviceName with
  | some domain =>
    let r := g.checkFaviconExists net serviceName
    if r.1 = false then
      ({ name := serviceName, domain := some domain }, r.2)
    else
      match parseDomain domain with
      | some parts =>
        if lower serviceName = lower parts.sld then
          ({ name := serviceName, tld := some parts.tld }, r.2)
        else
          ({ name := serviceName, sld := some parts.sld, tld := some parts.tld }, r.2)
      | none => ({ name := serviceName, domain := some domain }, r.2)
  | none =>
    let r := g.checkFaviconExists net serviceName
    if r.1 = false then
      ({ name := serviceName, domain := some (serviceName ++ l ".com") }, r.2)
    else
      ({ name := serviceName, tld := some (l "com") }, r.2)

/-- Model of `generateServiceConfigs(serviceNames)`.  The JavaScript
version maps `generateServiceConfig` over the names under `Promise.all`;
on the single-threaded event loop the cache updates interleave, which the
embedding renders as left-to-right threading of the instance state.  The
result list is in the order of `serviceNames`, as `Promise.all`
preserves positions regardless of completion order. -/
def ServiceConfigGenerator.generateServiceConfigs (g : ServiceConfigGenerator)
    (net : Str → Option Bool) : List Str → List Config × ServiceConfigGenerator
  | [] => ([], g)
  | n :: rest =>
    let r := g.generateServiceConfig net n
    let rs := r.2.generateServiceConfigs net rest
    (r.1 :: rs.1, rs.2)

/-- JavaScript truthiness of an optional string property: an absent
property (`undefined`) and the empty string are both falsy. -/
def truthy : Option Str → Bool
  | some s => !s.isEmpty
  | none => false

/-- Model of `configToString(config)`: a single-line literal object.  A
part is pushed for a property exactly when the property is truthy, in
the fixed order `name`, `tld`, `sld`, `domain`, `alias`; the `name` part
is pushed unconditionally.  The literal braces are written with their
character codes. -/
def configToString (config : Config) : Str :=
  let parts := [l "name: \"" ++ config.name ++ l "\""]
  let parts := parts ++
    (if truthy config.tld then [l "tld: \"" ++ config.tld.getD [] ++ l "\""] else [])
  let parts := parts ++
    (if truthy config.sld then [l "sld: \"" ++ config.sld.getD [] ++ l "\""] else [])
  let parts := parts ++
    (if truthy config.domain then [l "domain: \"" ++ config.domain.getD [] ++ l "\""] else [])
  let parts := parts ++
    (if truthy config.«alias» then [l "alias: \"" ++ config.«alias».getD [] ++ l "\""] else [])
  l "\x7b " ++ joinSep (l ", ") parts ++ l " \x7d"

/-- Model of `configsToString(configs)`: each record rendered by
`configToString`, indented with two spaces, joined by a comma and a
newline. -/
def configsToString (configs : List Config) : Str :=
  joinSep (l ",\n") (configs.map (fun config => l "  " ++ configToString config))

/-- Modelled from the spec (section 4.3), for the refinement claim about
identifiers outside the special-case table: the domain-of-record is the
identifier followed by ".com"; without an icon the full-domain form is
emitted; with an icon the domain-of-record is decomposed and the
second-level component is compared case-insensitively with the
identifier, a decomposition failure degrading to the full-domain form. -/
def inferDefaultCascadeSpec (faviconExists : Bool) (identifier : Str) : Config :=
  let domain := identifier ++ l ".com"
  if faviconExists = false then { name := identifier, domain := some domain }
  else
    match parseDomain domain with
    | none => { name := identifier, domain := some domain }
    | some parts =>
      if lower parts.sld = lower identifier then
        { name := identifier, tld := some parts.tld }
      else
        { name := identifier, sld := some parts.sld, tld := some parts.tld }

/-- Model of JavaScript `String.prototype.startsWith` on the list
representation, used to define substring containment. -/
def startsWithL : Str → Str → Bool
  | _, [] => true
  | [], _ :: _ => false
  | c :: cs, d :: ds => c = d && startsWithL cs ds

/-- Model of JavaScript `String.prototype.includes`. -/
def containsSub : Str → Str → Bool
  | [], pat => pat.isEmpty
  | c :: rest, pat => startsWithL (c :: rest) pat || containsSub rest pat

/-- Model of JavaScript `name.replace("-", ".")`: only the first
occurrence of the hyphen is replaced. -/
def replaceFirstHyphen : Str → Str
  | [] => []
  | c :: rest => if c = '-' then '.' :: rest else c :: replaceFirstHyphen rest

/-- The known top-level-domain tokens of the hyphen heuristic in
`script.js`. -/
def knownTldTokens : List Str :=
  [l "com", l "org", l "net", l "ai", l "io", l "co"]

/-- Model of the per-service definition built inline by `fetchServices`
in `script.js` (the sibling revision of the generator): a static chain
of branches on the raw name, with hyphen-splitting heuristics and
hard-coded cases such as the name "xai" receiving the display string
"xAI". -/
def scriptJsServiceDefinition (name : Str) : Config :=
  if containsSub name (l "google-") then
    { name := name, tld := some (l "google"), «alias» := some name }
  else if name = l "xai" then
    { name := l "xAI", tld := some (l "ai"), sld := some (l "x") }
  else if name = l "rednote" then
    { name := l "rednote", domain := some (l "xiaohongshu.com"),
      «alias» := some (l "Xiaohongshu") }
  else if name = l "claude-ai" then
    { name := name, domain := some (l "claude.ai") }
  else if name = l "openai" then
    { name := name, tld := some (l "com") }
  else if name = l "github" then
    { name := name, tld := some (l "com") }
  else if containsSub name (l "-") then
    let parts := splitOnChar '-' name
    let lastPart := parts.getD (parts.length - 1) []
    if lastPart ∈ knownTldTokens then
      let base : Config := { name := name, tld := some lastPart }
      if 1 < parts.length then
        let remainingParts := parts.dropLast
        if remainingParts.length = 1 then
          { base with sld := some (remainingParts.getD 0 []) }
        else
          let potentialSld := joinSep (l "-") remainingParts
          if potentialSld.length ≤ 15 then { base with sld := some potentialSld }
          else { base with domain := some (replaceFirstHyphen name ++ l ".com") }
      else base
    else
      if parts.length = 2 ∧ (parts.getD 0 []).length ≤ 10 ∧
          (parts.getD 1 []).length ≤ 10 then
        { name := name, tld := some (l "com"), sld := some (parts.getD 0 []) }
      else
        { name := name, domain := some (name.filter (fun c => c ≠ '-') ++ l ".com") }
  else
    { name := name, tld := some (l "com") }

/-! ## Helper lemmas -/

/-- Once `checkFaviconExists` has run for a name, running it again on the
resulting state returns the same boolean and leaves the state unchanged,
for any behaviour of the network. -/
theorem checkFaviconExists_stable (g : ServiceConfigGenerator)
    (net net' : Str → Option Bool) (name : Str) :
    ((g.checkFaviconExists net name).2).checkFaviconExists net' name =
      ((g.checkFaviconExists net name).1, (g.checkFaviconExists net name).2) := by
  unfold ServiceConfigGenerator.checkFaviconExists
  cases h : g.faviconCache.lookup name with
  | some b => simp [h]
  | none =>
    cases hn : net (faviconUrl g name) with
    | some ok => simp [h, hn, List.lookup]
    | none => simp [h, hn, List.lookup]

/-- `checkFaviconExists` only touches the favicon cache. -/
theorem checkFaviconExists_specialDomains (g : ServiceConfigGenerator)
    (net : Str → Option Bool) (name : Str) :
    ((g.checkFaviconExists net name).2).specialDomains = g.specialDomains := by
  unfold ServiceConfigGenerator.checkFaviconExists
  cases h : g.faviconCache.lookup name with
  | some b => simp [h]
  | none =>
    cases hn : net (faviconUrl g name) with
    | some ok => simp [h, hn]
    | none => simp [h, hn]

/-- The state produced by `generateServiceConfig` is the state produced
by its favicon check. -/
theorem generateServiceConfig_state (g : ServiceConfigGenerator)
    (net : Str → Option Bool) (name : Str) :
    (g.generateServiceConfig net name).2 = (g.checkFaviconExists net name).2 := by
  unfold ServiceConfigGenerator.generateServiceConfig
  cases h : g.specialDomains.lookup name with
  | some d =>
    by_cases hb : (g.checkFaviconExists net name).1 = false
    · simp [h, hb]
    · cases hp : parseDomain d with
      | some parts =>
        by_cases he : lower name = lower parts.sld <;> simp [h, hb, hp, he]
      | none => simp [h, hb, hp]
  | none =>
    by_cases hb : (g.checkFaviconExists net name).1 = false <;> simp [h, hb]

/-- Every branch of `generateServiceConfig` copies the service name into
the record unchanged. -/
theorem generateServiceConfig_name (g : ServiceConfigGenerator)
    (net : Str → Option Bool) (name : Str) :
    ((g.generateServiceConfig net name).1).name = name := by
  unfold ServiceConfigGenerator.generateServiceConfig
  cases h : g.specialDomains.lookup name with
  | some d =>
    by_cases hb : (g.checkFaviconExists net name).1 = false
    · simp [h, hb]
    · cases hp : parseDomain d with
      | some parts =>
        by_cases he : lower name = lower parts.sld <;> simp [h, hb, hp, he]
      | none => simp [h, hb, hp]
  | none =>
    by_cases hb : (g.checkFaviconExists net name).1 = false <;> simp [h, hb]

/-- Splitting a `joinSep` application at its first element. -/
theorem joinSep_cons (sep p : Str) (ps : List Str) :
    ∃ t : Str, joinSep sep (p :: ps) = p ++ t := by
  cases ps with
  | nil => exact ⟨[], by simp [joinSep]⟩
  | cons q qs => exact ⟨sep ++ joinSep sep (q :: qs), by simp [joinSep]⟩

/-- The split of a string never yields an empty list of fragments. -/
theorem splitOnChar_ne_nil (sep : Char) (s : Str) : splitOnChar sep s ≠ [] := by
  cases s with
  | nil => simp [splitOnChar]
  | cons c rest =>
    simp only [splitOnChar]
    by_cases h : c = sep
    · simp [h]
    · simp only [h, if_false]
      cases hs : splitOnChar sep rest <;> simp

/-- Splitting a string of the form `xs ++ sep :: ys` where `xs` is free
of the separator peels off `xs` as the first fragment. -/
theorem splitOnChar_append_sep (sep : Char) (xs ys : Str) (h : sep ∉ xs) :
    splitOnChar sep (xs ++ sep :: ys) = xs :: splitOnChar sep ys := by
  induction xs with
  | nil => simp [splitOnChar]
  | cons c cs ih =>
    have hc : ¬ c = sep := fun hh => h (by rw [hh]; exact List.mem_cons_self _ _)
    have hcs : sep ∉ cs := fun hh => h (List.mem_cons_of_mem _ hh)
    simp only [List.cons_append, splitOnChar, hc, if_false, List.append_eq]
    rw [ih hcs]

/-- A string ending in ".com" is never one of the compound suffixes of
the allow-list (they all end in other letters). -/
theorem append_com_not_specialTld (s : Str) : s ++ l ".com" ∉ specialTlds := by
  intro hmem
  have hlast : (s ++ l ".com").getLast? = some 'm' := by
    rw [List.getLast?_append_of_ne_nil _ (by decide)]
    decide
  simp only [specialTlds, List.mem_cons, List.not_mem_nil, or_false] at hmem
  rcases hmem with h | h | h | h | h | h <;> rw [h] at hlast <;>
    exact absurd hlast (by decide)

/-- Decomposing `name ++ ".com"` for a dot-free `name` yields `name` as
the second-level and "com" as the top-level component. -/
theorem parseDomain_append_com (name : Str) (h : '.' ∉ name) :
    parseDomain (name ++ l ".com") = some ⟨name, l "com"⟩ := by
  have hsplit : splitOnDot (name ++ l ".com") = [name, l "com"] := by
    show splitOnChar '.' (name ++ '.' :: l "com") = [name, l "com"]
    rw [splitOnChar_append_sep '.' name (l "com") h]
    rw [show splitOnChar '.' (l "com") = [l "com"] from by decide]
  have hns : (name ++ (l "." ++ l "com")) ∈ specialTlds → False :=
    fun hm => append_com_not_specialTld name hm
  unfold parseDomain
  rw [hsplit]
  simp [joinDot, joinSep, hns]
  intro hmem
  exact absurd hmem hns

/-! ## Claim theorems -/

/-- C9: every record returned by the inference engine has the service
name; a record carrying a domain carries neither tld nor sld; a record
without a domain carries a tld; and a carried sld differs from the
service name. -/
theorem C9_record_invariant (g : ServiceConfigGenerator)
    (net : Str → Option Bool) (name : Str) :
    ((g.generateServiceConfig net name).1).name = name ∧
    (((g.generateServiceConfig net name).1).domain.isSome = true →
      ((g.generateServiceConfig net name).1).tld = none ∧
      ((g.generateServiceConfig net name).1).sld = none) ∧
    (((g.generateServiceConfig net name).1).domain = none →
      ((g.generateServiceConfig net name).1).tld.isSome = true) ∧
    (∀ s, ((g.generateServiceConfig net name).1).sld = some s → s ≠ name) := by
  unfold ServiceConfigGenerator.generateServiceConfig
  cases h : g.specialDomains.lookup name with
  | some d =>
    by_cases hb : (g.checkFaviconExists net name).1 = false
    · simp [h, hb]
    · cases hp : parseDomain d with
      | some parts =>
        by_cases he : lower name = lower parts.sld
        · simp [h, hb, hp, he]
        · simp [h, hb, hp, he]
          intro hcontra
          exact he (by rw [hcontra])
      | none => simp [h, hb, hp]
  | none =>
    by_cases hb : (g.checkFaviconExists net name).1 = false <;> simp [h, hb]

/-- C7: a completed favicon check is cached, so a later check for the
same identifier touches no network and leaves the cache unchanged, and
re-running the inference for the same identifier on the resulting state
reproduces the record and the state exactly, for any later network
behaviour. -/
theorem C7_cache_idempotent :
    (∀ (g : ServiceConfigGenerator) (net net' : Str → Option Bool) (name : Str),
      ((g.checkFaviconExists net name).2).checkFaviconExists net' name =
        ((g.checkFaviconExists net name).1, (g.checkFaviconExists net name).2)) ∧
    (∀ (g : ServiceConfigGenerator) (net net' : Str → Option Bool) (name : Str),
      ((g.generateServiceConfig net name).2).generateServiceConfig net' name =
        g.generateServiceConfig net name) := by
  refine ⟨checkFaviconExists_stable, ?_⟩
  intro g net net' name
  rw [generateServiceConfig_state g net name]
  have hsd := checkFaviconExists_specialDomains g net name
  have hstable := checkFaviconExists_stable g net net' name
  unfold ServiceConfigGenerator.generateServiceConfig
  rw [hsd]
  cases h : g.specialDomains.lookup name with
  | some d => simp only [hstable]
  | none => simp only [hstable]

/-- C5: when the special-case lookup succeeds, the icon exists and the
domain decomposition fails, the failure is caught and the full-domain
form is returned together with the state of the favicon check. -/
theorem C5_parse_failure_caught (g : ServiceConfigGenerator)
    (net : Str → Option Bool) (name domain : Str)
    (hl : g.specialDomains.lookup name = some domain)
    (hp : parseDomain domain = none)
    (hb : (g.checkFaviconExists net name).1 = true) :
    g.generateServiceConfig net name =
      ({ name := name, domain := some domain }, (g.checkFaviconExists net name).2) := by
  unfold ServiceConfigGenerator.generateServiceConfig
  simp [hl, hp, hb]

/-- Witness for C5 at a generator whose table maps a service to an
unparsable (dot-free) domain, with an icon present. -/
theorem C5_parse_failure_caught_witness :
    ({ faviconBaseUrl := l "", faviconCache := [],
       specialDomains := [(l "svc", l "nodots")] } :
        ServiceConfigGenerator).generateServiceConfig (fun _ => some true) (l "svc") =
      ({ name := l "svc", domain := some (l "nodots") },
        { faviconBaseUrl := l "", faviconCache := [(l "svc", true)],
          specialDomains := [(l "svc", l "nodots")] }) := by
  rw [C5_parse_failure_caught _ (fun _ => some true) (l "svc") (l "nodots")
        (by decide) (by decide) (by decide)]
  decide

/-- C6: on a cache miss, a thrown fetch or a non-2xx response makes the
favicon check return `false` without raising, and the `false` result is
recorded in the cache. -/
theorem C6_probe_failure_false_cached (g : ServiceConfigGenerator)
    (net : Str → Option Bool) (name : Str)
    (hc : g.faviconCache.lookup name = none)
    (hn : net (faviconUrl g name) = none ∨ net (faviconUrl g name) = some false) :
    (g.checkFaviconExists net name).1 = false ∧
    ((g.checkFaviconExists net name).2).faviconCache.lookup name = some false := by
  unfold ServiceConfigGenerator.checkFaviconExists
  rcases hn with hn | hn <;> simp [hc, hn, List.lookup]

/-- Witness for C6 on the fresh instance with a throwing network. -/
theorem C6_probe_failure_false_cached_witness :
    (ServiceConfigGenerator.init.checkFaviconExists (fun _ => none) (l "x")).1 = false ∧
    ((ServiceConfigGenerator.init.checkFaviconExists
        (fun _ => none) (l "x")).2).faviconCache.lookup (l "x") = some false :=
  C6_probe_failure_false_cached ServiceConfigGenerator.init (fun _ => none) (l "x")
    (by decide) (Or.inl rfl)

/-- C2 counterexample: on the identifier "xai", with the icon present,
the engine emits the raw identifier as the name, not the canonical
display string "xAI" that the claim requires. -/
theorem C2_counterexample :
    ((ServiceConfigGenerator.init.generateServiceConfig
        (fun _ => some true) (l "xai")).1).name = l "xai" ∧
    (l "xai" : Str) ≠ l "xAI" := by
  decide

/-- C2 as amended: the engine applies no display-name override (the
emitted name always equals the raw identifier); the canonical display
string "xAI" appears only in the static per-service definition of the
sibling revision `script.js`, which assigns it together with tld "ai"
and sld "x" outside the special-case lookup and icon gate. -/
theorem C2_no_display_override :
    (∀ (g : ServiceConfigGenerator) (net : Str → Option Bool) (name : Str),
      ((g.generateServiceConfig net name).1).name = name) ∧
    scriptJsServiceDefinition (l "xai") =
      { name := l "xAI", tld := some (l "ai"), sld := some (l "x") } :=
  ⟨generateServiceConfig_name, by decide⟩

/-- C10: the serializer omits a key whenever its value is falsy, so an
empty-string tld, sld, domain or alias serializes exactly like an absent
one, while the name key is always emitted, right after the opening
brace, even when its value is the empty string. -/
theorem C10_falsy_omission :
    (∀ c : Config,
      (configToString { c with tld := some [] } =
        configToString { c with tld := none }) ∧
      (configToString { c with sld := some [] } =
        configToString { c with sld := none }) ∧
      (configToString { c with domain := some [] } =
        configToString { c with domain := none }) ∧
      (configToString { c with «alias» := some [] } =
        configToString { c with «alias» := none })) ∧
    (∀ c : Config, ∃ t : Str,
      configToString c = l "\x7b " ++ ((l "name: \"" ++ c.name ++ l "\"") ++ t)) ∧
    configToString { name := [] } = l "\x7b name: \"\" \x7d" := by
  refine ⟨?_, ?_, by decide⟩
  · intro c
    refine ⟨?_, ?_, ?_, ?_⟩ <;> simp [configToString, truthy]
  · intro c
    obtain ⟨t₀, ht⟩ :=
      joinSep_cons (l ", ") (l "name: \"" ++ c.name ++ l "\"")
        ((if truthy c.tld then [l "tld: \"" ++ c.tld.getD [] ++ l "\""] else []) ++
          (if truthy c.sld then [l "sld: \"" ++ c.sld.getD [] ++ l "\""] else []) ++
          (if truthy c.domain then [l "domain: \"" ++ c.domain.getD [] ++ l "\""] else []) ++
          (if truthy c.«alias» then [l "alias: \"" ++ c.«alias».getD [] ++ l "\""] else []))
    refine ⟨t₀ ++ l " \x7d", ?_⟩
    simp only [configToString, List.singleton_append, List.cons_append,
      List.nil_append, List.append_assoc] at *
    rw [ht]
    simp [List.append_assoc]

/-- C3 counterexample: the identifier "a.b" is not a key of the
special-case table, yet with the icon present the implementation's
shortcut emits the tld-only record while the spec's cascade of
decomposing "a.b.com" emits an sld+tld record, so the claimed equality
fails. -/
theorem C3_counterexample :
    specialDomainsInit.lookup (l "a.b") = none ∧
    (ServiceConfigGenerator.init.generateServiceConfig
        (fun _ => some true) (l "a.b")).1 =
      { name := l "a.b", tld := some (l "com") } ∧
    inferDefaultCascadeSpec true (l "a.b") =
      { name := l "a.b", sld := some (l "b"), tld := some (l "com") } ∧
    (ServiceConfigGenerator.init.generateServiceConfig
        (fun _ => some true) (l "a.b")).1 ≠
      inferDefaultCascadeSpec true (l "a.b") := by
  decide

/-- C3 as amended: for every identifier that contains no dot and is not
a key of the special-case table, the implementation's shortcut agrees
with the spec's cascade of decomposing identifier ++ ".com" and
comparing the second-level component with the identifier. -/
theorem C3_default_shortcut_meets_cascade (g : ServiceConfigGenerator)
    (net : Str → Option Bool) (name : Str)
    (hdot : '.' ∉ name) (hl : g.specialDomains.lookup name = none) :
    g.generateServiceConfig net name =
      (inferDefaultCascadeSpec ((g.checkFaviconExists net name).1) name,
        (g.checkFaviconExists net name).2) := by
  have hp := parseDomain_append_com name hdot
  unfold ServiceConfigGenerator.generateServiceConfig inferDefaultCascadeSpec
  simp only [hl]
  by_cases hb : (g.checkFaviconExists net name).1 = false
  · simp [hb]
  · simp [hb, hp]

/-- Witness for C3 as amended, at the dot-free identifier "gitea" with
an icon present. -/
theorem C3_default_shortcut_meets_cascade_witness :
    ServiceConfigGenerator.init.generateServiceConfig
        (fun _ => some true) (l "gitea") =
      (inferDefaultCascadeSpec true (l "gitea"),
        { ServiceConfigGenerator.init with faviconCache := [(l "gitea", true)] }) := by
  rw [C3_default_shortcut_meets_cascade ServiceConfigGenerator.init
      (fun _ => some true) (l "gitea") (by decide) (by decide)]
  decide

/-- C1: every domain of the special-case table decomposes successfully,
and for every key of the table the engine follows the icon-gated
cascade on the mapped domain: without an icon the full-domain form,
with an icon and a case-insensitive match of the second-level component
against the identifier the tld-only form, otherwise the sld+tld form. -/
theorem C1_special_case_cascade :
    (∀ p ∈ specialDomainsInit, (parseDomain p.2).isSome = true) ∧
    (∀ (g : ServiceConfigGenerator) (net : Str → Option Bool)
        (name domain sl tl : Str),
      g.specialDomains = specialDomainsInit →
      g.specialDomains.lookup name = some domain →
      parseDomain domain = some ⟨sl, tl⟩ →
      g.generateServiceConfig net name =
        (if (g.checkFaviconExists net name).1 = false then
            { name := name, domain := some domain }
          else if lower name = lower sl then
            { name := name, tld := some tl }
          else
            { name := name, tld := some tl, sld := some sl },
          (g.checkFaviconExists net name).2)) := by
  constructor
  · decide
  · intro g net name domain sl tl _ hl hp
    unfold ServiceConfigGenerator.generateServiceConfig
    simp only [hl, hp]
    by_cases hb : (g.checkFaviconExists net name).1 = false
    · simp [hb]
    · by_cases he : lower name = lower sl <;> simp [hb, he]

/-- Witness for C1 at the key "xai" with the icon present: the mapped
domain "x.ai" decomposes into "x" and "ai", the second-level component
differs from the identifier, and the sld+tld form is emitted. -/
theorem C1_special_case_cascade_witness :
    ServiceConfigGenerator.init.generateServiceConfig
        (fun _ => some true) (l "xai") =
      ({ name := l "xai", tld := some (l "ai"), sld := some (l "x") },
        { ServiceConfigGenerator.init with faviconCache := [(l "xai", true)] }) := by
  rw [(C1_special_case_cascade).2 ServiceConfigGenerator.init
      (fun _ => some true) (l "xai") (l "x.ai") (l "x") (l "ai")
      rfl (by decide) (by decide)]
  decide

/-- Positional views of a list with at least two elements, read off its
reversed form: the length, the last two elements, and the element before
them when one exists. -/
theorem rev_views (ps : List Str) (lst snd : Str) (rest : List Str)
    (h : ps.reverse = lst :: snd :: rest) :
    ps.length = rest.length + 2 ∧
    ps.drop (ps.length - 2) = [snd, lst] ∧
    ps.getD (ps.length - 2) [] = snd ∧
    ps.getD (ps.length - 1) [] = lst ∧
    (∀ p t, rest = p :: t → ps.getD (ps.length - 3) [] = p) := by
  have hps : ps = rest.reverse ++ [snd, lst] := by
    have h2 := congrArg List.reverse h
    rw [List.reverse_reverse] at h2
    rw [h2]
    simp [List.reverse_cons, List.append_assoc]
  subst hps
  have hlen : (rest.reverse ++ [snd, lst]).length = rest.length + 2 := by simp
  refine ⟨hlen, ?_, ?_, ?_, ?_⟩
  · rw [hlen]
    have : rest.length + 2 - 2 = rest.reverse.length := by simp
    rw [this, List.drop_left]
  · rw [hlen]
    have h2 : rest.length + 2 - 2 = rest.length := by omega
    rw [h2, List.getD_append_right _ _ _ _ (by simp)]
    simp
  · rw [hlen]
    have h2 : rest.length + 2 - 1 = rest.length + 1 := by omega
    rw [h2, List.getD_append_right _ _ _ _ (by simp)]
    simp
  · intro p t hrest
    subst hrest
    rw [hlen]
    have h2 : (p :: t).length + 2 - 3 = t.length := by
      simp only [List.length_cons]
      omega
    have h3 : (p :: t).reverse ++ [snd, lst] = t.reverse ++ [p, snd, lst] := by
      simp [List.reverse_cons, List.append_assoc]
    rw [h2, h3, List.getD_append_right _ _ _ _ (by simp)]
    simp

/-- C4 counterexample: for the input ".co.uk" the labels are "", "co"
and "uk", the last two joined form an allow-listed compound suffix, and
the label immediately preceding them is the empty string, yet the code
returns "co" as the second-level component, not that empty label. -/
theorem C4_counterexample :
    splitOnDot (l ".co.uk") = [[], l "co", l "uk"] ∧
    joinDot [l "co", l "uk"] ∈ specialTlds ∧
    parseDomain (l ".co.uk") = some ⟨l "co", l "co.uk"⟩ ∧
    parseDomain (l ".co.uk") ≠ some ⟨[], l "co.uk"⟩ := by
  decide

/-- C4 as amended: `decompose` splits on dots and fails exactly when
fewer than two fragments result; with at least two fragments, when the
last two joined by a dot form an allow-listed compound suffix the
top-level component is that suffix and the second-level component is
the fragment immediately preceding it when that fragment exists and is
non-empty, and the second-to-last fragment otherwise; without a
compound suffix the components are the last two fragments. -/
theorem C4_parseDomain_characterized (domain : Str) :
    (parseDomain domain = none ↔ (splitOnDot domain).length < 2) ∧
    (∀ lst snd rest,
      (splitOnDot domain).reverse = lst :: snd :: rest →
      (snd ++ l "." ++ lst ∈ specialTlds →
        parseDomain domain =
          some { sld := match rest with
                        | [] => snd
                        | p :: _ => if p = [] then snd else p,
                 tld := snd ++ l "." ++ lst }) ∧
      (snd ++ l "." ++ lst ∉ specialTlds →
        parseDomain domain = some { sld := snd, tld := lst })) := by
  constructor
  · unfold parseDomain
    by_cases hlen : (splitOnDot domain).length < 2
    · simp [hlen]
    · rw [if_neg hlen]
      simp only [hlen, iff_false]
      split <;> simp
  · intro lst snd rest hrev
    obtain ⟨hlen, hdrop, hsnd, hlst, hpre⟩ :=
      rev_views (splitOnDot domain) lst snd rest hrev
    have hjoin : joinDot ((splitOnDot domain).drop ((splitOnDot domain).length - 2)) =
        snd ++ l "." ++ lst := by
      rw [hdrop]
      simp [joinDot, joinSep, List.append_assoc]
    constructor
    · intro hmem
      unfold parseDomain
      rw [if_neg (by omega)]
      rw [hjoin, if_pos hmem]
      cases rest with
      | nil =>
        have h3 : ¬ (3 ≤ (splitOnDot domain).length ∧
            (splitOnDot domain).getD ((splitOnDot domain).length - 3) [] ≠ []) := by
          rintro ⟨h3a, -⟩
          rw [hlen] at h3a
          simp only [List.length_nil] at h3a
          omega
        rw [if_neg h3, hsnd]
      | cons p t =>
        have hp := hpre p t rfl
        by_cases hpe : p = []
        · have h3 : ¬ (3 ≤ (splitOnDot domain).length ∧
              (splitOnDot domain).getD ((splitOnDot domain).length - 3) [] ≠ []) := by
            rw [hp]
            simp [hpe]
          rw [if_neg h3, hsnd]
          simp [hpe]
        · have h3 : 3 ≤ (splitOnDot domain).length ∧
              (splitOnDot domain).getD ((splitOnDot domain).length - 3) [] ≠ [] := by
            rw [hp, hlen]
            refine ⟨?_, hpe⟩
            simp only [List.length_cons]
            omega
          rw [if_pos h3, hp]
          simp [hpe]
    · intro hmem
      unfold parseDomain
      rw [if_neg (by omega)]
      rw [hjoin, if_neg hmem, hsnd, hlst]

/-- Witness for C4 as amended, at "example.co.uk": the reversed label
list is "uk", "co", "example"; the compound suffix "co.uk" matches; the
preceding non-empty label "example" becomes the second-level
component. -/
theorem C4_parseDomain_characterized_witness :
    parseDomain (l "example.co.uk") = some ⟨l "example", l "co.uk"⟩ := by
  have h := ((C4_parseDomain_characterized (l "example.co.uk")).2
      (l "uk") (l "co") [l "example"] (by decide)).1 (by decide)
  rw [h]
  decide

/-- C8: a record with a name and a non-empty tld renders exactly as the
two-key literal; in general the serializer emits the present keys in the
fixed order name, tld, sld, domain, alias with double-quoted values and
comma-space separation, provided no present value is empty; the batch
generator returns records positionally matching the requested
identifiers; and the multi-record serializer joins the per-record
strings with a comma and newline, each indented by two spaces, in list
order. -/
theorem C8_serializer_shape :
    (∀ n t : Str, t ≠ [] →
      configToString { name := n, tld := some t } =
        l "\x7b name: \"" ++ n ++ l "\", tld: \"" ++ t ++ l "\" \x7d") ∧
    (∀ c : Config,
      c.tld ≠ some [] → c.sld ≠ some [] → c.domain ≠ some [] →
      c.«alias» ≠ some [] →
      configToString c =
        l "\x7b " ++
          joinSep (l ", ")
            ((l "name: \"" ++ c.name ++ l "\"") ::
              ((c.tld.map (fun t => l "tld: \"" ++ t ++ l "\"")).toList ++
               (c.sld.map (fun s => l "sld: \"" ++ s ++ l "\"")).toList ++
               (c.domain.map (fun d => l "domain: \"" ++ d ++ l "\"")).toList ++
               (c.«alias».map (fun a => l "alias: \"" ++ a ++ l "\"")).toList)) ++
          l " \x7d") ∧
    (∀ (g : ServiceConfigGenerator) (net : Str → Option Bool) (names : List Str),
      ((g.generateServiceConfigs net names).1).map Config.name = names) ∧
    (∀ configs : List Config,
      configsToString configs =
        joinSep (l ",\n") (configs.map (fun c => l "  " ++ configToString c))) := by
  refine ⟨?_, ?_, ?_, fun _ => rfl⟩
  · intro n t ht
    have hemp : t.isEmpty = false := by
      cases t with
      | nil => exact absurd rfl ht
      | cons a as => rfl
    simp only [configToString, truthy, hemp, Bool.not_false, if_true, if_false,
      Option.getD_some, Bool.not_true, List.nil_append, List.append_nil,
      List.cons_append, List.singleton_append]
    simp only [joinSep, List.append_assoc]
    rfl
  · rintro ⟨n, ot, os, od, oa⟩ h1 h2 h3 h4
    have hne : ∀ (o : Option Str), o ≠ some [] → truthy o = o.isSome := by
      rintro (_ | ⟨⟩ | ⟨c, cs⟩) ho
      · rfl
      · exact absurd rfl ho
      · rfl
    simp only [configToString, truthy] at *
    cases ot <;> cases os <;> cases od <;> cases oa <;>
      simp_all [List.isEmpty_iff, joinSep, List.append_assoc]
  · intro g net names
    induction names generalizing g with
    | nil => simp [ServiceConfigGenerator.generateServiceConfigs]
    | cons n rest ih =>
      simp [ServiceConfigGenerator.generateServiceConfigs,
        generateServiceConfig_name, ih]

/-- Witness for C8 at the record with name "X" and tld "Y". -/
theorem C8_serializer_shape_witness :
    configToString { name := l "X", tld := some (l "Y") } =
      l "\x7b name: \"X\", tld: \"Y\" \x7d" := by
  rw [C8_serializer_shape.1 (l "X") (l "Y") (by decide)]
  decide

/-- Witness for C9, at a no-icon special case (full-domain form carries
no tld and no sld) and at the icon-present key "xai" (tld present, sld
"x" different from the identifier). -/
theorem C9_record_invariant_witness :
    (((ServiceConfigGenerator.init.generateServiceConfig
        (fun _ => some false) (l "rednote")).1).tld = none ∧
      ((ServiceConfigGenerator.init.generateServiceConfig
        (fun _ => some false) (l "rednote")).1).sld = none) ∧
    ((ServiceConfigGenerator.init.generateServiceConfig
        (fun _ => some true) (l "xai")).1).tld.isSome = true ∧
    l "x" ≠ l "xai" := by
  refine ⟨(C9_record_invariant ServiceConfigGenerator.init
      (fun _ => some false) (l "rednote")).2.1 (by decide),
    (C9_record_invariant ServiceConfigGenerator.init
      (fun _ => some true) (l "xai")).2.2.1 (by decide),
    (C9_record_invariant ServiceConfigGenerator.init
      (fun _ => some true) (l "xai")).2.2.2 (l "x") (by decide)⟩

end MetaJs

